import Mathlib

/-!
Verification of the PTS point-cloud reader/writer
(`cpp/open3d/t/io/file_format/FilePTS.cpp`).

The file format is line oriented: a header line carrying the declared point
count, followed by data lines of whitespace-separated numeric fields.  We embed

* a data line as a `List Token`, where a `Token` is what one whitespace-separated
  field looks like to `SplitString` and `sscanf`: an integer literal, a decimal
  literal, or non-numeric text;
* a file as the parsed header (`Option ℕ`: `none` when the first line is absent
  or `sscanf("%zu")` matches nothing, leaving the count at `0`) plus the data
  lines;
* C `double` values as `ℚ` (the reader/writer only move decimal literals in and
  out of doubles, so exact rationals model the text-level contract);
* the reader's three lazily-allocated tensors as `Option (List (Option _))`:
  the outer `Option` is "tensor not yet allocated" (a default-constructed
  `core::Tensor` and NULL data pointer), the inner `Option` is per-row
  "this row of the uninitialized allocation was never written".
-/

namespace PTS

/-- One whitespace-separated field of a data line, at the granularity the C
code distinguishes: `inum z` is an integer literal (`%lf` and `%d` both read
it fully), `fnum q` is a literal with a decimal point (`%lf` reads it fully;
`%d` stalls at the fractional part, so a full-line `sscanf` pattern with a
subsequent conversion falls short of a complete match), and `junk` is a field
that no numeric conversion accepts.  The corner case of a decimal literal
sitting in the final `%d` slot of a pattern (where `sscanf` still reports a
full match, truncating) involves sub-token text positions and is not
modelled; no claim depends on it. -/
inductive Token where
  | inum (z : ℤ)
  | fnum (q : ℚ)
  | junk
deriving DecidableEq

/-- Result of a `%lf` conversion on one token. -/
def Token.asF : Token → Option ℚ
  | .inum z => some (z : ℚ)
  | .fnum q => some q
  | .junk => none

/-- Result of a `%d` conversion on one token, demanding that the whole token
is consumed so that the following conversion of the pattern can proceed. -/
def Token.asI : Token → Option ℤ
  | .inum z => some z
  | _ => none

/-- A PTS file: the parsed header count (`none` when the first line is missing
or non-numeric, in which case `num_of_pts` stays `0` in the C code) and the
data lines, each split into whitespace-separated tokens. -/
structure PTSFile where
  header : Option ℕ
  lines : List (List Token)

/-- sscanf pattern of lines 127: three doubles, trailing fields ignored. -/
def parse3 : List Token → Option (ℚ × ℚ × ℚ)
  | t0 :: t1 :: t2 :: _ => do
    let x ← t0.asF
    let y ← t1.asF
    let z ← t2.asF
    pure (x, y, z)
  | _ => none

/-- sscanf pattern of lines 121-122: four doubles, trailing fields ignored. -/
def parse4 : List Token → Option (ℚ × ℚ × ℚ × ℚ)
  | t0 :: t1 :: t2 :: t3 :: _ => do
    let x ← t0.asF
    let y ← t1.asF
    let z ← t2.asF
    let i ← t3.asF
    pure (x, y, z, i)
  | _ => none

/-- sscanf pattern of lines 111-112: four doubles then three ints, trailing
fields ignored. -/
def parse7 : List Token → Option (ℚ × ℚ × ℚ × ℚ × ℤ × ℤ × ℤ)
  | t0 :: t1 :: t2 :: t3 :: t4 :: t5 :: t6 :: _ => do
    let x ← t0.asF
    let y ← t1.asF
    let z ← t2.asF
    let i ← t3.asF
    let r ← t4.asI
    let g ← t5.asI
    let b ← t6.asI
    pure (x, y, z, i, r, g, b)
  | _ => none

/-- The C++ conversion of an `int` to `uint8_t` (`colors_ptr[...] = r`):
reduction modulo 2^8, well defined for unsigned targets. -/
def toU8 (z : ℤ) : ℕ := (z % 256).toNat

/-- The reader's in-flight state: the committed field count (`0` while still
undetermined) and the three tensors (`none` = not yet allocated / NULL data
pointer; inner `none` = row of the uninitialized allocation never written). -/
structure RState where
  numFields : ℕ
  points : Option (List (Option (ℚ × ℚ × ℚ)))
  intensities : Option (List (Option ℚ))
  colors : Option (List (Option (ℕ × ℕ × ℕ)))

/-- Write one row of an allocated tensor through its data pointer; on an
unallocated tensor there is nothing to write (the C code never reaches such a
write: the guards that lead to it imply the tensor was allocated). -/
def setRow (a : Option (List (Option α))) (i : ℕ) (v : α) :
    Option (List (Option α)) :=
  a.map fun l => l.set i (some v)

/-- Lines 76-99 of the C code: on the very first data line, commit the token
count as the field count, failing when it is below 3, and allocate the points
tensor always, the intensities tensor iff the count is at least 4, the colors
tensor iff it is at least 7.  On later lines this is a no-op. -/
def commitSchema (numPts : ℕ) (line : List Token) (st : RState) :
    Except Unit RState :=
  if st.numFields = 0 then
    if line.length < 3 then .error ()
    else
      .ok { numFields := line.length,
            points := some (List.replicate numPts none),
            intensities :=
              if 4 ≤ line.length then some (List.replicate numPts none)
              else st.intensities,
            colors :=
              if 7 ≤ line.length then some (List.replicate numPts none)
              else st.colors }
  else .ok st

/-- Lines 108-131 of the C code: try the 7-field pattern when the committed
count allows it, else the 4-field pattern when allowed, else the 3-field
pattern; the first pattern that fully matches stores its row, and a line
matching none of them stores nothing. -/
def storeLine (line : List Token) (idx : ℕ) (st : RState) : RState :=
  match (if 7 ≤ st.numFields then parse7 line else none) with
  | some (x, y, z, i, r, g, b) =>
    { st with
      points := setRow st.points idx (x, y, z),
      intensities := setRow st.intensities idx i,
      colors := setRow st.colors idx (toU8 r, toU8 g, toU8 b) }
  | none =>
    match (if 4 ≤ st.numFields then parse4 line else none) with
    | some (x, y, z, i) =>
      { st with
        points := setRow st.points idx (x, y, z),
        intensities := setRow st.intensities idx i }
    | none =>
      match parse3 line with
      | some (x, y, z) => { st with points := setRow st.points idx (x, y, z) }
      | none => st

/-- One iteration of the read loop body on the line just read: schema
commitment (first line only), the `num_of_fields > st.size()` length check of
lines 102-106, then the parse cascade. -/
def step (numPts : ℕ) (line : List Token) (idx : ℕ) (st : RState) :
    Except Unit RState :=
  match commitSchema numPts line st with
  | .error e => .error e
  | .ok st1 =>
    if line.length < st1.numFields then .error ()
    else .ok (storeLine line idx st1)

/-- The read loop of line 73: `while (idx < num_of_pts && ReadLine())`; `idx`
advances once per line read, whether or not the line stored any data. -/
def readLoop (numPts : ℕ) :
    List (List Token) → ℕ → RState → Except Unit RState
  | [], _, st => .ok st
  | line :: rest, idx, st =>
    if idx < numPts then
      match step numPts line idx st with
      | .error e => .error e
      | .ok st1 => readLoop numPts rest (idx + 1) st1
    else .ok st

/-- The reader's output cloud: the three per-point attributes it may set.
The collaborating `PointCloud` container is out of scope for the repository
(spec section 1); per its interface description, `SetPoints` / `SetPointAttr`
/ `SetPointColors` simply store the given tensor, so the output is exactly
the three tensors handed over at lines 138-144 (the points tensor possibly
still unallocated when no data line was ever read). -/
structure ReadCloud where
  positions : Option (List (Option (ℚ × ℚ × ℚ)))
  intensities : Option (List (Option ℚ))
  colors : Option (List (Option (ℕ × ℕ × ℕ)))

/-- State at line 62-71: nothing committed, nothing allocated. -/
def initState : RState := ⟨0, none, none, none⟩

/-- `ReadPointCloudFromPTS` (lines 40-151).  `none` models a `false` return:
missing/unparsable/zero header, or an abort inside the loop.  File-open
failure and low-level exceptions are environmental and not modelled. -/
def ReadPointCloudFromPTS (f : PTSFile) : Option ReadCloud :=
  match f.header with
  | none => none
  | some numPts =>
    if numPts = 0 then none
    else
      match readLoop numPts f.lines 0 initState with
      | .error _ => none
      | .ok st =>
        some { positions := st.points,
               intensities :=
                 if 4 ≤ st.numFields then st.intensities else none,
               colors := if 7 ≤ st.numFields then st.colors else none }

/-- A concrete in-memory point cloud handed to the writer: positions always,
optional N×1 intensities, optional N×3 uint8 colors (channels as ℕ). -/
structure PointCloud where
  positions : List (ℚ × ℚ × ℚ)
  intensities : Option (List ℚ)
  colors : Option (List (ℕ × ℕ × ℕ))

/-- The value a `%.10f` conversion commits to text: the argument rounded to
10 decimal digits (which is also exactly what reading the printed literal
back yields). -/
def fmt10 (q : ℚ) : ℚ := (round (q * 10 ^ 10) : ℚ) / 10 ^ 10

/-- The body of the writer loop (lines 191-229) for row `i`: layout chosen by
has-colors && has-intensities, else has-intensities, else neither; `%.10f`
fields become decimal-literal tokens, `%d` color channels integer-literal
tokens.  `none` models the exception thrown by an out-of-range tensor access
when an attribute tensor is shorter than the positions tensor. -/
def writeLine (pc : PointCloud) (i : ℕ) : Option (List Token) :=
  match pc.colors, pc.intensities with
  | some cs, some vs => do
    let p ← pc.positions[i]?
    let iv ← vs[i]?
    let c ← cs[i]?
    pure [.fnum (fmt10 p.1), .fnum (fmt10 p.2.1), .fnum (fmt10 p.2.2),
          .fnum (fmt10 iv), .inum (c.1 : ℤ), .inum (c.2.1 : ℤ),
          .inum (c.2.2 : ℤ)]
  | _, some vs => do
    let p ← pc.positions[i]?
    let iv ← vs[i]?
    pure [.fnum (fmt10 p.1), .fnum (fmt10 p.2.1), .fnum (fmt10 p.2.2),
          .fnum (fmt10 iv)]
  | _, _ => do
    let p ← pc.positions[i]?
    pure [.fnum (fmt10 p.1), .fnum (fmt10 p.2.1), .fnum (fmt10 p.2.2)]

/-- What the writer left on disk: the header line if it was reached, the data
lines emitted so far, and the boolean return value.  A failed write keeps the
partial file (the C code performs no cleanup). -/
structure WriteResult where
  header : Option ℕ
  lines : List (List Token)
  ok : Bool

/-- The writer loop, row `i` with `k` rows still to go; an exception while
formatting a row aborts, keeping the lines already emitted. -/
def writeLoop (pc : PointCloud) : ℕ → ℕ → List (List Token) × Bool
  | _, 0 => ([], true)
  | i, k + 1 =>
    match writeLine pc i with
    | none => ([], false)
    | some l =>
      let r := writeLoop pc (i + 1) k
      (l :: r.1, r.2)

/-- `WritePointCloudToPTS` (lines 153-241): empty cloud fails before the
header is written; otherwise the header then one line per point.  File-open
and `fprintf` device failures are environmental and not modelled. -/
def WritePointCloudToPTS (pc : PointCloud) : WriteResult :=
  if pc.positions.isEmpty then ⟨none, [], false⟩
  else
    let n := pc.positions.length
    let r := writeLoop pc 0 n
    ⟨some n, r.1, r.2⟩

/-- Reinterpret what the writer produced as a file for the reader: the data
the writer put on disk, parsed back line by line. -/
def toPTSFile (w : WriteResult) : PTSFile := ⟨w.header, w.lines⟩

/-- The row the parse cascade of `storeLine` extracts from one line under
committed field count `nf`: position, optionally written intensity,
optionally written color; `none` when every applicable pattern fails. -/
def rowData (nf : ℕ) (l : List Token) :
    Option ((ℚ × ℚ × ℚ) × Option ℚ × Option (ℕ × ℕ × ℕ)) :=
  match (if 7 ≤ nf then parse7 l else none) with
  | some (x, y, z, i, r, g, b) =>
    some ((x, y, z), some i, some (toU8 r, toU8 g, toU8 b))
  | none =>
    match (if 4 ≤ nf then parse4 l else none) with
    | some (x, y, z, i) => some ((x, y, z), some i, none)
    | none =>
      match parse3 l with
      | some p => some (p, none, none)
      | none => none

/-- Position component the cascade writes for one line, if any. -/
def rowP (nf : ℕ) (l : List Token) : Option (ℚ × ℚ × ℚ) :=
  (rowData nf l).map (·.1)

/-- Intensity component the cascade writes for one line, if any. -/
def rowI (nf : ℕ) (l : List Token) : Option ℚ :=
  (rowData nf l).bind (·.2.1)

/-- Color component the cascade writes for one line, if any. -/
def rowC (nf : ℕ) (l : List Token) : Option (ℕ × ℕ × ℕ) :=
  (rowData nf l).bind (·.2.2)

/-- First argument when present, second otherwise. -/
def orD (a b : Option α) : Option α :=
  match a with
  | some x => some x
  | none => b

/-- Update one row of a possibly-unallocated tensor when the cascade produced
a value for it. -/
def updRow (a : Option (List (Option α))) (i : ℕ) (v : Option α) :
    Option (List (Option α)) :=
  match v with
  | some x => setRow a i x
  | none => a

/-- Concrete one-point cloud with intensity and color, for evaluation. -/
def wpc1 : PointCloud := ⟨[(1, -2, 3/2)], some [7/4], some [(255, 0, 128)]⟩

/-- Concrete file whose single data line has 4 tokens, for evaluation. -/
def wf2 : PTSFile :=
  ⟨some 1, [[.fnum 1, .fnum 2, .fnum 3, .fnum 9]]⟩

/-- The cloud reading `wf2` yields. -/
def wrc2 : ReadCloud := ⟨some [some (1, 2, 3)], some [some 9], none⟩

/-- Concrete file whose middle data line has 3 tokens that are all
non-numeric, for evaluation. -/
def wf6 : PTSFile :=
  ⟨some 3, [[.fnum 1, .fnum 2, .fnum 3], [.junk, .junk, .junk],
    [.fnum 7, .fnum 8, .fnum 9]]⟩

/-- Concrete cloud carrying colors but no intensities, for evaluation. -/
def wpc8 : PointCloud := ⟨[(1, 2, 3)], none, some [(4, 5, 6)]⟩

/-- Concrete file declaring 2 points but holding one data line. -/
def wf9 : PTSFile := ⟨some 2, [[.fnum 1, .fnum 2, .fnum 3]]⟩

/-- The cloud reading `wf9` yields. -/
def wrc9 : ReadCloud := ⟨some [some (1, 2, 3), none], none, none⟩

/-- Concrete file declaring 4 points but holding two 4-token data lines. -/
def wf10 : PTSFile :=
  ⟨some 4, [[.fnum 1, .fnum 2, .fnum 3, .fnum 5],
    [.fnum 4, .fnum 5, .fnum 6, .fnum 7]]⟩

/-- The cloud reading `wf10` yields. -/
def wrc10 : ReadCloud :=
  ⟨some [some (1, 2, 3), some (4, 5, 6), none, none],
   some [some 5, some 7, none, none], none⟩

theorem orD_none (a : Option α) : orD a none = a := by
  cases a <;> rfl

theorem getD_replicate_none (n i : ℕ) :
    (List.replicate n (none : Option α)).getD i none = none := by
  rcases lt_or_le i n with h | h
  · simp [List.getD_eq_getElem?_getD, List.getElem?_replicate, h]
  · simp [List.getD_eq_getElem?_getD, List.getElem?_eq_none, h]

theorem getD_of_le (l : List α) (i : ℕ) (d : α) (h : l.length ≤ i) :
    l.getD i d = d := by
  simp [List.getD_eq_getElem?_getD, List.getElem?_eq_none, h]

/-- Writing through the data pointer of an allocated tensor: the written row
reads back, other rows are untouched, the allocation size is unchanged. -/
theorem updRow_some (L : List (Option α)) (i : ℕ) (v : Option α)
    (hi : i < L.length) :
    ∃ L', updRow (some L) i v = some L' ∧ L'.length = L.length ∧
      L'.getD i none = orD v (L.getD i none) ∧
      ∀ j, j ≠ i → L'.getD j none = L.getD j none := by
  cases v with
  | none => exact ⟨L, rfl, rfl, rfl, fun j _ => rfl⟩
  | some x =>
    refine ⟨L.set i (some x), rfl, by simp, ?_, ?_⟩
    · simp [orD, List.getD_eq_getElem?_getD, List.getElem?_set_eq_of_lt _ hi]
    · intro j hj
      simp [List.getD_eq_getElem?_getD, List.getElem?_set_ne (Ne.symm hj)]

/-- The same for a tensor that is allocated exactly when `c` holds, given
that the cascade writes nothing into it when it is unallocated. -/
theorem updRow_cond (c : Prop) [Decidable c] (L : List (Option α)) (i : ℕ)
    (v : Option α) (hi : i < L.length) (hv : ¬c → v = none) :
    ∃ L', updRow (if c then some L else none) i v =
        (if c then some L' else none) ∧
      L'.length = L.length ∧ L'.getD i none = orD v (L.getD i none) ∧
      ∀ j, j ≠ i → L'.getD j none = L.getD j none := by
  by_cases hc : c
  · obtain ⟨L', h1, h2, h3, h4⟩ := updRow_some L i v hi
    exact ⟨L', by rw [if_pos hc, if_pos hc]; exact h1, h2, h3, h4⟩
  · have hv' := hv hc
    subst hv'
    exact ⟨L, rfl, rfl, rfl, fun j _ => rfl⟩

theorem rowData_nil (nf : ℕ) : rowData nf [] = none := by
  unfold rowData
  simp [parse3, parse4, parse7]

theorem rowP_nil (nf : ℕ) : rowP nf [] = none := by
  simp [rowP, rowData_nil]

theorem rowI_nil (nf : ℕ) : rowI nf [] = none := by
  simp [rowI, rowData_nil]

theorem rowC_nil (nf : ℕ) : rowC nf [] = none := by
  simp [rowC, rowData_nil]

/-- With a committed count below 4 only the 3-field pattern is reachable, and
it never writes an intensity. -/
theorem rowI_of_lt (nf : ℕ) (l : List Token) (h : nf < 4) :
    rowI nf l = none := by
  unfold rowI rowData
  rw [if_neg (by omega), if_neg (by omega)]
  cases parse3 l <;> simp

/-- With a committed count below 7 the 7-field pattern is unreachable, and no
other pattern writes a color. -/
theorem rowC_of_lt (nf : ℕ) (l : List Token) (h : nf < 7) :
    rowC nf l = none := by
  unfold rowC rowData
  rw [if_neg (by omega)]
  cases h4 : (if 4 ≤ nf then parse4 l else none) with
  | some v => obtain ⟨x, y, z, i⟩ := v; simp
  | none => cases parse3 l <;> simp

/-- The parse cascade of `storeLine`, factored through `rowData`: each tensor
receives its component of the extracted row, when there is one. -/
theorem storeLine_eq (line : List Token) (idx : ℕ) (st : RState) :
    storeLine line idx st =
      ⟨st.numFields, updRow st.points idx (rowP st.numFields line),
        updRow st.intensities idx (rowI st.numFields line),
        updRow st.colors idx (rowC st.numFields line)⟩ := by
  unfold storeLine rowP rowI rowC rowData
  cases h7 : (if 7 ≤ st.numFields then parse7 line else none) with
  | some v => obtain ⟨x, y, z, i, r, g, b⟩ := v; rfl
  | none =>
    cases h4 : (if 4 ≤ st.numFields then parse4 line else none) with
    | some v => obtain ⟨x, y, z, i⟩ := v; rfl
    | none =>
      cases h3 : parse3 line with
      | some p => obtain ⟨x, y, z⟩ := p; rfl
      | none => rfl

theorem storeLine_numFields (line : List Token) (idx : ℕ) (st : RState) :
    (storeLine line idx st).numFields = st.numFields := by
  rw [storeLine_eq]

/-- A loop iteration on a line at least as long as the already-committed
field count stores the line and continues. -/
theorem step_committed (numPts : ℕ) (line : List Token) (idx : ℕ)
    (st : RState) (h0 : st.numFields ≠ 0) (hlen : st.numFields ≤ line.length) :
    step numPts line idx st = .ok (storeLine line idx st) := by
  unfold step commitSchema
  rw [if_neg h0]
  show (if line.length < st.numFields then _ else _) = _
  rw [if_neg (by omega)]

/-- A loop iteration on a line shorter than the already-committed field count
aborts the read. -/
theorem step_committed_err (numPts : ℕ) (line : List Token) (idx : ℕ)
    (st : RState) (h0 : st.numFields ≠ 0)
    (hshort : line.length < st.numFields) :
    step numPts line idx st = .error () := by
  unfold step commitSchema
  rw [if_neg h0]
  show (if line.length < st.numFields then _ else _) = _
  rw [if_pos hshort]

/-- The first data line with at least 3 tokens commits its token count,
allocates, and is then stored like any other line. -/
theorem step_first (numPts : ℕ) (line : List Token) (idx : ℕ)
    (h3 : 3 ≤ line.length) :
    step numPts line idx initState =
      .ok (storeLine line idx
        ⟨line.length, some (List.replicate numPts none),
          if 4 ≤ line.length then some (List.replicate numPts none) else none,
          if 7 ≤ line.length then some (List.replicate numPts none)
          else none⟩) := by
  unfold step commitSchema initState
  rw [if_pos rfl, if_neg (by omega)]
  show (if line.length < line.length then _ else _) = _
  rw [if_neg (by omega)]

/-- A first data line with fewer than 3 tokens aborts the read. -/
theorem step_first_err (numPts : ℕ) (line : List Token) (idx : ℕ)
    (h : line.length < 3) :
    step numPts line idx initState = .error () := by
  unfold step commitSchema initState
  rw [if_pos rfl, if_pos h]

theorem readLoop_cons (numPts : ℕ) (l : List Token)
    (rest : List (List Token)) (idx : ℕ) (st : RState) (h : idx < numPts) :
    readLoop numPts (l :: rest) idx st =
      match step numPts l idx st with
      | .error e => .error e
      | .ok st1 => readLoop numPts rest (idx + 1) st1 := by
  conv_lhs => unfold readLoop
  rw [if_pos h]

theorem readLoop_stop (numPts : ℕ) (l : List Token)
    (rest : List (List Token)) (idx : ℕ) (st : RState) (h : ¬idx < numPts) :
    readLoop numPts (l :: rest) idx st = .ok st := by
  conv_lhs => unfold readLoop
  rw [if_neg h]

/-- Content of the read loop from a committed state: when every line that the
loop will consume has at least the committed number of tokens, the loop
succeeds, the allocations keep their size, row `idx + j` of each tensor
receives the component the cascade extracts from line `j` (keeping its old
content when the cascade extracts nothing), and all other rows are
untouched. -/
theorem readLoop_spec (numPts nf : ℕ) (h3 : 3 ≤ nf) :
    ∀ (lines : List (List Token)) (idx : ℕ)
      (P : List (Option (ℚ × ℚ × ℚ))) (I : List (Option ℚ))
      (C : List (Option (ℕ × ℕ × ℕ))),
      (∀ j, j < lines.length → idx + j < numPts →
        nf ≤ (lines.getD j []).length) →
      P.length = numPts → I.length = numPts → C.length = numPts →
      ∃ P' I' C',
        readLoop numPts lines idx
            ⟨nf, some P, if 4 ≤ nf then some I else none,
              if 7 ≤ nf then some C else none⟩ =
          .ok ⟨nf, some P', if 4 ≤ nf then some I' else none,
            if 7 ≤ nf then some C' else none⟩ ∧
        P'.length = numPts ∧ I'.length = numPts ∧ C'.length = numPts ∧
        (∀ j, j < lines.length → idx + j < numPts →
          P'.getD (idx + j) none =
            orD (rowP nf (lines.getD j [])) (P.getD (idx + j) none) ∧
          I'.getD (idx + j) none =
            orD (rowI nf (lines.getD j [])) (I.getD (idx + j) none) ∧
          C'.getD (idx + j) none =
            orD (rowC nf (lines.getD j [])) (C.getD (idx + j) none)) ∧
        (∀ k, k < idx ∨ numPts ≤ k ∨ idx + lines.length ≤ k →
          P'.getD k none = P.getD k none ∧
          I'.getD k none = I.getD k none ∧
          C'.getD k none = C.getD k none) := by
  intro lines
  induction lines with
  | nil =>
    intro idx P I C _ hP hI hC
    exact ⟨P, I, C, rfl, hP, hI, hC,
      fun j hj _ => absurd hj (by simp),
      fun k _ => ⟨rfl, rfl, rfl⟩⟩
  | cons l rest ih =>
    intro idx P I C hlen hP hI hC
    by_cases hidx : idx < numPts
    · have hl0 : nf ≤ l.length := by
        have h := hlen 0 (by simp) (by omega)
        simpa using h
      obtain ⟨P1, eP, lP, gPi, gPo⟩ :=
        updRow_some P idx (rowP nf l) (by omega)
      obtain ⟨I1, eI, lI, gIi, gIo⟩ :=
        updRow_cond (4 ≤ nf) I idx (rowI nf l) (by omega)
          (fun h => rowI_of_lt nf l (by omega))
      obtain ⟨C1, eC, lC, gCi, gCo⟩ :=
        updRow_cond (7 ≤ nf) C idx (rowC nf l) (by omega)
          (fun h => rowC_of_lt nf l (by omega))
      have hstep : step numPts l idx
          ⟨nf, some P, if 4 ≤ nf then some I else none,
            if 7 ≤ nf then some C else none⟩ =
          .ok ⟨nf, some P1, if 4 ≤ nf then some I1 else none,
            if 7 ≤ nf then some C1 else none⟩ := by
        rw [step_committed numPts l idx
          ⟨nf, some P, if 4 ≤ nf then some I else none,
            if 7 ≤ nf then some C else none⟩
          (show nf ≠ 0 by omega) hl0, storeLine_eq]
        show Except.ok (⟨nf, updRow (some P) idx (rowP nf l),
          updRow (if 4 ≤ nf then some I else none) idx (rowI nf l),
          updRow (if 7 ≤ nf then some C else none) idx (rowC nf l)⟩ : RState)
          = _
        rw [eP, eI, eC]
      have hlen' : ∀ j, j < rest.length → idx + 1 + j < numPts →
          nf ≤ (rest.getD j []).length := by
        intro j hj hjn
        have h := hlen (j + 1) (by simp; omega) (by omega)
        simpa using h
      obtain ⟨P', I', C', hloop, lP', lI', lC', hin, hout⟩ :=
        ih (idx + 1) P1 I1 C1 hlen' (by omega) (by omega) (by omega)
      refine ⟨P', I', C', ?_, lP', lI', lC', ?_, ?_⟩
      · rw [readLoop_cons numPts l rest idx _ hidx, hstep]
        exact hloop
      · intro j hj hjn
        cases j with
        | zero =>
          have hk := hout idx (by omega)
          simp only [Nat.add_zero, List.getD_cons_zero]
          exact ⟨by rw [hk.1, gPi], by rw [hk.2.1, gIi], by rw [hk.2.2, gCi]⟩
        | succ j' =>
          have e1 : idx + (j' + 1) = idx + 1 + j' := by omega
          have hj' : j' < rest.length := by simp at hj; omega
          have h := hin j' hj' (by omega)
          have eg : (l :: rest).getD (j' + 1) [] = rest.getD j' [] := by
            simp
          rw [e1, eg]
          refine ⟨?_, ?_, ?_⟩
          · rw [h.1, gPo (idx + 1 + j') (by omega)]
          · rw [h.2.1, gIo (idx + 1 + j') (by omega)]
          · rw [h.2.2, gCo (idx + 1 + j') (by omega)]
      · intro k hk
        have hk' : k < idx + 1 ∨ numPts ≤ k ∨ idx + 1 + rest.length ≤ k := by
          simp at hk ⊢
          omega
        have h := hout k hk'
        have hne : k ≠ idx := by simp at hk; omega
        refine ⟨?_, ?_, ?_⟩
        · rw [h.1, gPo k hne]
        · rw [h.2.1, gIo k hne]
        · rw [h.2.2, gCo k hne]
    · refine ⟨P, I, C, readLoop_stop numPts l rest idx _ hidx,
        hP, hI, hC, ?_, fun k _ => ⟨rfl, rfl, rfl⟩⟩
      intro j _ hjn
      omega

/-- From a committed state, a line shorter than the committed field count
anywhere in the portion of the file the loop consumes aborts the whole
read. -/
theorem readLoop_err (numPts nf : ℕ) (h0 : nf ≠ 0) :
    ∀ (lines : List (List Token)) (idx : ℕ) (st : RState),
      st.numFields = nf →
      (∃ j, j < lines.length ∧ idx + j < numPts ∧
        (lines.getD j []).length < nf) →
      readLoop numPts lines idx st = .error () := by
  intro lines
  induction lines with
  | nil =>
    rintro idx st hst ⟨j, hj, -, -⟩
    exact absurd hj (by simp)
  | cons l rest ih =>
    rintro idx st hst ⟨j, hj, hjn, hshort⟩
    have hidx : idx < numPts := by omega
    rw [readLoop_cons numPts l rest idx st hidx]
    by_cases hl : l.length < nf
    · rw [step_committed_err numPts l idx st (by omega) (by omega)]
    · have hj0 : j ≠ 0 := by
        intro e
        subst e
        simp at hshort
        omega
      rw [step_committed numPts l idx st (by omega) (by omega)]
      show readLoop numPts rest (idx + 1) (storeLine l idx st) = .error ()
      apply ih (idx + 1) (storeLine l idx st)
        (by rw [storeLine_numFields, hst])
      refine ⟨j - 1, by simp at hj; omega, by omega, ?_⟩
      have eg : rest.getD (j - 1) [] = (l :: rest).getD j [] := by
        cases j with
        | zero => exact absurd rfl hj0
        | succ j' => simp
      rw [eg]
      exact hshort

/-- Success of the loop from a committed state means no consumed line was
shorter than the committed field count. -/
theorem readLoop_ok_lengths (numPts nf : ℕ) (h0 : nf ≠ 0)
    (lines : List (List Token)) (idx : ℕ) (st st' : RState)
    (hst : st.numFields = nf)
    (hok : readLoop numPts lines idx st = .ok st') :
    ∀ j, j < lines.length → idx + j < numPts →
      nf ≤ (lines.getD j []).length := by
  intro j hj hjn
  by_contra h
  rw [readLoop_err numPts nf h0 lines idx st hst ⟨j, hj, hjn, by omega⟩] at hok
  exact absurd hok (by simp)

/-- Reduction of the reader once the header is known to have parsed. -/
theorem read_header_some (f : PTSFile) (n : ℕ) (hh : f.header = some n) :
    ReadPointCloudFromPTS f =
      (if n = 0 then none
       else
        match readLoop n f.lines 0 initState with
        | .error _ => none
        | .ok st =>
          some ⟨st.points, if 4 ≤ st.numFields then st.intensities else none,
            if 7 ≤ st.numFields then st.colors else none⟩) := by
  unfold ReadPointCloudFromPTS
  rw [hh]

/-- A successful read has a present, nonzero header and a completed loop. -/
theorem read_some_inv (f : PTSFile) (rc : ReadCloud)
    (hr : ReadPointCloudFromPTS f = some rc) :
    ∃ n, f.header = some n ∧ n ≠ 0 ∧
      ∃ st', readLoop n f.lines 0 initState = .ok st' := by
  cases hh : f.header with
  | none =>
    unfold ReadPointCloudFromPTS at hr
    rw [hh] at hr
    exact absurd hr (by simp)
  | some n =>
    rw [read_header_some f n hh] at hr
    by_cases hn : n = 0
    · rw [if_pos hn] at hr
      exact absurd hr (by simp)
    · rw [if_neg hn] at hr
      cases hloop : readLoop n f.lines 0 initState with
      | error e => rw [hloop] at hr; exact absurd hr (by simp)
      | ok st' => exact ⟨n, rfl, hn, st', hloop⟩

/-- A successful loop starting on a first data line implies the line had at
least 3 tokens. -/
theorem read_some_first (n : ℕ) (l0 : List Token) (rest : List (List Token))
    (st' : RState) (hn : n ≠ 0)
    (hok : readLoop n (l0 :: rest) 0 initState = .ok st') :
    3 ≤ l0.length := by
  by_contra h
  rw [readLoop_cons n l0 rest 0 initState (by omega),
    step_first_err n l0 0 (by omega)] at hok
  exact absurd hok (by simp)

/-- A successful loop consumed no line shorter than the first data line. -/
theorem readLoop_start_lengths (n : ℕ) (l0 : List Token)
    (rest : List (List Token)) (st' : RState) (hn : n ≠ 0) (h3 : 3 ≤ l0.length)
    (hok : readLoop n (l0 :: rest) 0 initState = .ok st') :
    ∀ j, j < (l0 :: rest).length → j < n →
      l0.length ≤ ((l0 :: rest).getD j []).length := by
  rw [readLoop_cons n l0 rest 0 initState (by omega),
    step_first n l0 0 h3] at hok
  intro j hj hjn
  cases j with
  | zero => simp
  | succ j' =>
    have hnum : (storeLine l0 0
        (⟨l0.length, some (List.replicate n none),
          if 4 ≤ l0.length then some (List.replicate n none) else none,
          if 7 ≤ l0.length then some (List.replicate n none) else none⟩ :
            RState)).numFields = l0.length := by
      rw [storeLine_numFields]
    have h := readLoop_ok_lengths n l0.length (by omega) rest 1 _ st' hnum
      hok j' (by simp at hj; omega) (by omega)
    simpa using h

/-- Full characterization of a well-formed read: the header parsed to a
nonzero `n`, the first data line has at least 3 tokens, and no consumed line
is shorter than it.  Then the read succeeds; the positions tensor has `n`
rows, the intensities tensor is present (with `n` rows) iff the committed
count is at least 4, the colors tensor iff at least 7; and row `k` of each
tensor holds exactly what the parse cascade extracts from data line `k`
(`none` — never written — when the cascade fails on that line or the file
ended before line `k`). -/
theorem read_spec (f : PTSFile) (n : ℕ) (l0 : List Token)
    (rest : List (List Token)) (hh : f.header = some n) (hn : n ≠ 0)
    (hl : f.lines = l0 :: rest) (h3 : 3 ≤ l0.length)
    (hlen : ∀ j, j < f.lines.length → j < n →
      l0.length ≤ (f.lines.getD j []).length) :
    ∃ P' I' C',
      ReadPointCloudFromPTS f =
        some ⟨some P', if 4 ≤ l0.length then some I' else none,
          if 7 ≤ l0.length then some C' else none⟩ ∧
      P'.length = n ∧ I'.length = n ∧ C'.length = n ∧
      ∀ k, k < n →
        P'.getD k none = rowP l0.length (f.lines.getD k []) ∧
        I'.getD k none = rowI l0.length (f.lines.getD k []) ∧
        C'.getD k none = rowC l0.length (f.lines.getD k []) := by
  obtain ⟨P1, eP, lP, gPi, gPo⟩ :=
    updRow_some (List.replicate n (none : Option (ℚ × ℚ × ℚ))) 0
      (rowP l0.length l0) (by simp; omega)
  obtain ⟨I1, eI, lI, gIi, gIo⟩ :=
    updRow_cond (4 ≤ l0.length) (List.replicate n (none : Option ℚ)) 0
      (rowI l0.length l0) (by simp; omega)
      (fun h => rowI_of_lt l0.length l0 (by omega))
  obtain ⟨C1, eC, lC, gCi, gCo⟩ :=
    updRow_cond (7 ≤ l0.length)
      (List.replicate n (none : Option (ℕ × ℕ × ℕ))) 0
      (rowC l0.length l0) (by simp; omega)
      (fun h => rowC_of_lt l0.length l0 (by omega))
  have hlen' : ∀ j, j < rest.length → 1 + j < n →
      l0.length ≤ (rest.getD j []).length := by
    intro j hj hjn
    have h := hlen (j + 1) (by rw [hl]; simp; omega) (by omega)
    rw [hl] at h
    simpa using h
  obtain ⟨P', I', C', hloop, lP', lI', lC', hin, hout⟩ :=
    readLoop_spec n l0.length h3 rest 1 P1 I1 C1 hlen'
      (by rw [lP]; simp) (by rw [lI]; simp) (by rw [lC]; simp)
  have hst1 : storeLine l0 0
      (⟨l0.length, some (List.replicate n none),
        if 4 ≤ l0.length then some (List.replicate n none) else none,
        if 7 ≤ l0.length then some (List.replicate n none) else none⟩ :
          RState) =
      ⟨l0.length, some P1, if 4 ≤ l0.length then some I1 else none,
        if 7 ≤ l0.length then some C1 else none⟩ := by
    rw [storeLine_eq]
    show (⟨l0.length,
      updRow (some (List.replicate n none)) 0 (rowP l0.length l0),
      updRow (if 4 ≤ l0.length then some (List.replicate n none) else none) 0
        (rowI l0.length l0),
      updRow (if 7 ≤ l0.length then some (List.replicate n none) else none) 0
        (rowC l0.length l0)⟩ : RState) = _
    rw [eP, eI, eC]
  have hloop0 : readLoop n f.lines 0 initState =
      .ok ⟨l0.length, some P', if 4 ≤ l0.length then some I' else none,
        if 7 ≤ l0.length then some C' else none⟩ := by
    rw [hl, readLoop_cons n l0 rest 0 initState (by omega),
      step_first n l0 0 h3, hst1]
    exact hloop
  refine ⟨P', I', C', ?_, lP', lI', lC', ?_⟩
  · rw [read_header_some f n hh, if_neg hn, hloop0]
    show some (⟨some P',
      if 4 ≤ l0.length then (if 4 ≤ l0.length then some I' else none)
      else none,
      if 7 ≤ l0.length then (if 7 ≤ l0.length then some C' else none)
      else none⟩ : ReadCloud) = _
    by_cases h4 : 4 ≤ l0.length <;> by_cases h7 : 7 ≤ l0.length <;>
      simp [h4, h7]
  · intro k hk
    cases k with
    | zero =>
      have h := hout 0 (by omega)
      have eg : f.lines.getD 0 [] = l0 := by rw [hl]; simp
      rw [eg, h.1, h.2.1, h.2.2, gPi, gIi, gCi,
        getD_replicate_none, getD_replicate_none, getD_replicate_none,
        orD_none, orD_none, orD_none]
      exact ⟨rfl, rfl, rfl⟩
    | succ k' =>
      have eg : f.lines.getD (k' + 1) [] = rest.getD k' [] := by
        rw [hl]; simp
      by_cases hkr : k' < rest.length
      · have h := hin k' hkr (by omega)
        have e1 : 1 + k' = k' + 1 := by omega
        rw [e1] at h
        rw [eg, h.1, h.2.1, h.2.2,
          gPo (k' + 1) (by omega), gIo (k' + 1) (by omega),
          gCo (k' + 1) (by omega),
          getD_replicate_none, getD_replicate_none, getD_replicate_none,
          orD_none, orD_none, orD_none]
        exact ⟨rfl, rfl, rfl⟩
      · have h := hout (k' + 1) (by right; right; omega)
        have eg2 : rest.getD k' [] = [] :=
          getD_of_le rest k' [] (by omega)
        rw [eg, eg2, h.1, h.2.1, h.2.2,
          gPo (k' + 1) (by omega), gIo (k' + 1) (by omega),
          gCo (k' + 1) (by omega),
          getD_replicate_none, getD_replicate_none, getD_replicate_none,
          rowP_nil, rowI_nil, rowC_nil]
        exact ⟨rfl, rfl, rfl⟩

/-- Every successful read of a file with at least one data line is fully
described: the first data line had at least 3 tokens and committed its token
count, and the output cloud is the `read_spec` content. -/
theorem read_some_content (f : PTSFile) (rc : ReadCloud) (n : ℕ)
    (l0 : List Token) (rest : List (List Token)) (hh : f.header = some n)
    (hl : f.lines = l0 :: rest) (hr : ReadPointCloudFromPTS f = some rc) :
    3 ≤ l0.length ∧ n ≠ 0 ∧
    ∃ P' I' C',
      rc = ⟨some P', if 4 ≤ l0.length then some I' else none,
        if 7 ≤ l0.length then some C' else none⟩ ∧
      P'.length = n ∧ I'.length = n ∧ C'.length = n ∧
      ∀ k, k < n →
        P'.getD k none = rowP l0.length (f.lines.getD k []) ∧
        I'.getD k none = rowI l0.length (f.lines.getD k []) ∧
        C'.getD k none = rowC l0.length (f.lines.getD k []) := by
  obtain ⟨n', hh', hn, st', hok⟩ := read_some_inv f rc hr
  rw [hh] at hh'
  injection hh' with e
  subst e
  rw [hl] at hok
  have h3 := read_some_first n l0 rest st' hn hok
  have hlen : ∀ j, j < f.lines.length → j < n →
      l0.length ≤ (f.lines.getD j []).length := by
    rw [hl]
    exact readLoop_start_lengths n l0 rest st' hn h3 hok
  obtain ⟨P', I', C', hread, hlP, hlI, hlC, hpt⟩ :=
    read_spec f n l0 rest hh hn hl h3 hlen
  rw [hr] at hread
  injection hread with e'
  exact ⟨h3, hn, P', I', C', e', hlP, hlI, hlC, hpt⟩

/-- The value a written color channel takes on the round trip: a `uint8_t`
value below 256 survives `%d` printing, `%d` parsing, and the cast back. -/
theorem toU8_of_lt (c : ℕ) (h : c < 256) : toU8 (c : ℤ) = c := by
  unfold toU8
  rw [Int.emod_eq_of_lt (by omega) (by exact_mod_cast h)]
  exact Int.toNat_natCast c

/-- What `%.10f` commits to text differs from the exact value by at most
half an ulp of the 10-decimal-digit grid. -/
theorem fmt10_close (q : ℚ) : |fmt10 q - q| ≤ 1 / (2 * 10 ^ 10) := by
  have h2 : |(round (q * 10 ^ 10) : ℚ) - q * 10 ^ 10| ≤ 1 / 2 := by
    rw [abs_sub_comm]
    exact abs_sub_round (q * 10 ^ 10)
  have e : fmt10 q - q =
      ((round (q * 10 ^ 10) : ℚ) - q * 10 ^ 10) / 10 ^ 10 := by
    unfold fmt10
    ring
  rw [e, abs_div, abs_of_pos (show (0 : ℚ) < 10 ^ 10 by positivity)]
  calc |(round (q * 10 ^ 10) : ℚ) - q * 10 ^ 10| / 10 ^ 10
      ≤ (1 / 2) / 10 ^ 10 := by
        exact div_le_div_of_nonneg_right h2 (by positivity) |>.trans_eq rfl
    _ = 1 / (2 * 10 ^ 10) := by norm_num

/-- The cascade on a 7-token line as the writer emits it under committed
count 7. -/
theorem rowData_seven (x y z i : ℚ) (r g b : ℤ) :
    rowData 7 [.fnum x, .fnum y, .fnum z, .fnum i, .inum r, .inum g,
      .inum b] = some ((x, y, z), some i, some (toU8 r, toU8 g, toU8 b)) := by
  rfl

/-- The cascade on a 4-token line as the writer emits it under committed
count 4. -/
theorem rowData_four (x y z i : ℚ) :
    rowData 4 [.fnum x, .fnum y, .fnum z, .fnum i] =
      some ((x, y, z), some i, none) := by
  rfl

/-- The cascade on a 3-token line as the writer emits it under committed
count 3. -/
theorem rowData_three (x y z : ℚ) :
    rowData 3 [.fnum x, .fnum y, .fnum z] = some ((x, y, z), none, none) := by
  rfl

/-- The line the writer emits for row `i` when both optional attributes are
present: 7 fields, `X Y Z I R G B`. -/
theorem writeLine_both (pc : PointCloud) (vs : List ℚ)
    (cs : List (ℕ × ℕ × ℕ)) (i : ℕ) (hi : pc.intensities = some vs)
    (hc : pc.colors = some cs) (h1 : i < pc.positions.length)
    (h2 : i < vs.length) (h3 : i < cs.length) :
    writeLine pc i = some
      [.fnum (fmt10 (pc.positions.getD i (0, 0, 0)).1),
       .fnum (fmt10 (pc.positions.getD i (0, 0, 0)).2.1),
       .fnum (fmt10 (pc.positions.getD i (0, 0, 0)).2.2),
       .fnum (fmt10 (vs.getD i 0)),
       .inum ((cs.getD i (0, 0, 0)).1 : ℤ),
       .inum ((cs.getD i (0, 0, 0)).2.1 : ℤ),
       .inum ((cs.getD i (0, 0, 0)).2.2 : ℤ)] := by
  simp [writeLine, hc, hi, List.getElem?_eq_getElem, h1, h2, h3,
    List.getD_eq_getElem?_getD]

/-- The line the writer emits for row `i` with intensities but no colors:
4 fields, `X Y Z I`. -/
theorem writeLine_intens (pc : PointCloud) (vs : List ℚ) (i : ℕ)
    (hi : pc.intensities = some vs) (hc : pc.colors = none)
    (h1 : i < pc.positions.length) (h2 : i < vs.length) :
    writeLine pc i = some
      [.fnum (fmt10 (pc.positions.getD i (0, 0, 0)).1),
       .fnum (fmt10 (pc.positions.getD i (0, 0, 0)).2.1),
       .fnum (fmt10 (pc.positions.getD i (0, 0, 0)).2.2),
       .fnum (fmt10 (vs.getD i 0))] := by
  simp [writeLine, hc, hi, List.getElem?_eq_getElem, h1, h2,
    List.getD_eq_getElem?_getD]

/-- The line the writer emits for row `i` without intensities (colors, even
if present, are dropped): 3 fields, `X Y Z`. -/
theorem writeLine_plain (pc : PointCloud) (i : ℕ)
    (hi : pc.intensities = none) (h1 : i < pc.positions.length) :
    writeLine pc i = some
      [.fnum (fmt10 (pc.positions.getD i (0, 0, 0)).1),
       .fnum (fmt10 (pc.positions.getD i (0, 0, 0)).2.1),
       .fnum (fmt10 (pc.positions.getD i (0, 0, 0)).2.2)] := by
  cases hc : pc.colors with
  | none =>
    simp [writeLine, hc, hi, List.getElem?_eq_getElem, h1,
      List.getD_eq_getElem?_getD]
  | some cs =>
    simp [writeLine, hc, hi, List.getElem?_eq_getElem, h1,
      List.getD_eq_getElem?_getD]

/-- Every emitted line has the field count the attribute booleans select. -/
theorem writeLine_length (pc : PointCloud) (i : ℕ) (l : List Token)
    (h : writeLine pc i = some l) :
    l.length = if pc.colors.isSome && pc.intensities.isSome then 7
               else if pc.intensities.isSome then 4 else 3 := by
  unfold writeLine at h
  cases hc : pc.colors with
  | some cs =>
    cases hi : pc.intensities with
    | some vs =>
      rw [hc, hi] at h
      simp only [Option.bind_eq_bind, Option.bind_eq_some, Option.pure_def,
        Option.some.injEq] at h
      obtain ⟨p, -, iv, -, c, -, e⟩ := h
      subst e
      rfl
    | none =>
      rw [hc, hi] at h
      simp only [Option.bind_eq_bind, Option.bind_eq_some, Option.pure_def,
        Option.some.injEq] at h
      obtain ⟨p, -, e⟩ := h
      subst e
      rfl
  | none =>
    cases hi : pc.intensities with
    | some vs =>
      rw [hc, hi] at h
      simp only [Option.bind_eq_bind, Option.bind_eq_some, Option.pure_def,
        Option.some.injEq] at h
      obtain ⟨p, -, iv, -, e⟩ := h
      subst e
      rfl
    | none =>
      rw [hc, hi] at h
      simp only [Option.bind_eq_bind, Option.bind_eq_some, Option.pure_def,
        Option.some.injEq] at h
      obtain ⟨p, -, e⟩ := h
      subst e
      rfl

/-- Without an intensities attribute every emitted token is a `%.10f` float:
no color channel is ever written. -/
theorem writeLine_no_ints (pc : PointCloud) (i : ℕ) (l : List Token)
    (hi : pc.intensities = none) (h : writeLine pc i = some l) :
    ∀ t ∈ l, ∃ q, t = Token.fnum q := by
  unfold writeLine at h
  rw [hi] at h
  cases hc : pc.colors with
  | some cs =>
    rw [hc] at h
    simp only [Option.bind_eq_bind, Option.bind_eq_some, Option.pure_def,
      Option.some.injEq] at h
    obtain ⟨p, -, e⟩ := h
    rw [← e]
    intro t ht
    simp at ht
    rcases ht with h' | h' | h' <;> exact ⟨_, h'⟩
  | none =>
    rw [hc] at h
    simp only [Option.bind_eq_bind, Option.bind_eq_some, Option.pure_def,
      Option.some.injEq] at h
    obtain ⟨p, -, e⟩ := h
    rw [← e]
    intro t ht
    simp at ht
    rcases ht with h' | h' | h' <;> exact ⟨_, h'⟩

/-- Every line the writer loop emits comes from `writeLine` at some row. -/
theorem writeLoop_mem (pc : PointCloud) :
    ∀ (k i : ℕ) (l : List Token), l ∈ (writeLoop pc i k).1 →
      ∃ j, writeLine pc j = some l := by
  intro k
  induction k with
  | zero =>
    intro i l h
    exact absurd h (by simp [writeLoop])
  | succ k ih =>
    intro i l h
    unfold writeLoop at h
    cases hw : writeLine pc i with
    | none =>
      rw [hw] at h
      exact absurd h (by simp)
    | some l' =>
      rw [hw] at h
      simp only [List.mem_cons] at h
      rcases h with h | h
      · exact ⟨i, by rw [hw, h]⟩
      · exact ih (i + 1) l h

/-- When every remaining row formats successfully the loop returns true and
emits exactly one line per row, in order. -/
theorem writeLoop_ok (pc : PointCloud) :
    ∀ (k i : ℕ), (∀ j, j < k → (writeLine pc (i + j)).isSome = true) →
      ∃ ls, writeLoop pc i k = (ls, true) ∧ ls.length = k ∧
        ∀ j, j < k → ls.getD j [] = (writeLine pc (i + j)).getD [] := by
  intro k
  induction k with
  | zero =>
    intro i _
    exact ⟨[], rfl, rfl, fun j hj => absurd hj (by omega)⟩
  | succ k ih =>
    intro i hall
    have h0 : (writeLine pc i).isSome = true := by
      have h := hall 0 (by omega)
      simpa using h
    cases hw : writeLine pc i with
    | none => rw [hw] at h0; exact absurd h0 (by simp)
    | some l =>
      obtain ⟨ls, h1, h2, h3⟩ := ih (i + 1) (fun j hj => by
        have h := hall (j + 1) (by omega)
        rw [show i + (j + 1) = i + 1 + j by omega] at h
        exact h)
      refine ⟨l :: ls, ?_, by simp [h2], ?_⟩
      · unfold writeLoop
        rw [hw, h1]
      · intro j hj
        cases j with
        | zero => simp [hw]
        | succ j' =>
          simp only [List.getD_cons_succ]
          rw [h3 j' (by omega), show i + (j' + 1) = i + 1 + j' by omega]

/-- C3: when the first line is absent or non-numeric (header `none`, leaving
`num_of_pts` at 0) or parses to zero, the reader returns false and the output
cloud receives no points and no attributes (no `some` cloud is produced). -/
theorem claim_C3_header_error (f : PTSFile)
    (h : f.header = none ∨ f.header = some 0) :
    ReadPointCloudFromPTS f = none := by
  rcases h with h | h
  · unfold ReadPointCloudFromPTS
    rw [h]
  · rw [read_header_some f 0 h, if_pos rfl]

theorem claim_C3_witness :
    ((⟨none, []⟩ : PTSFile).header = none ∨
      (⟨none, []⟩ : PTSFile).header = some 0) ∧
    ReadPointCloudFromPTS ⟨none, []⟩ = none :=
  ⟨Or.inl rfl, claim_C3_header_error ⟨none, []⟩ (Or.inl rfl)⟩

/-- C7: writing a zero-point cloud is a reported failure: the return value is
false and neither the header line nor any data line is emitted. -/
theorem claim_C7_empty_write (pc : PointCloud) (h : pc.positions = []) :
    WritePointCloudToPTS pc = ⟨none, [], false⟩ := by
  unfold WritePointCloudToPTS
  rw [h]
  rfl

theorem claim_C7_witness :
    (⟨[], none, none⟩ : PointCloud).positions = [] ∧
    WritePointCloudToPTS ⟨[], none, none⟩ = ⟨none, [], false⟩ :=
  ⟨rfl, claim_C7_empty_write ⟨[], none, none⟩ rfl⟩

/-- C4: a first data line with fewer than 3 tokens aborts the read with a
false return, and so does any consumed later data line with fewer tokens
than the count committed on the first data line. -/
theorem claim_C4_field_count_errors :
    (∀ (f : PTSFile) (l0 : List Token) (rest : List (List Token)),
      f.lines = l0 :: rest → l0.length < 3 →
      ReadPointCloudFromPTS f = none) ∧
    (∀ (f : PTSFile) (n : ℕ) (l0 : List Token) (rest : List (List Token))
      (j : ℕ), f.header = some n → f.lines = l0 :: rest → 3 ≤ l0.length →
      1 ≤ j → j < n → j < f.lines.length →
      (f.lines.getD j []).length < l0.length →
      ReadPointCloudFromPTS f = none) := by
  constructor
  · intro f l0 rest hl hshort
    cases hh : f.header with
    | none =>
      unfold ReadPointCloudFromPTS
      rw [hh]
    | some n =>
      rw [read_header_some f n hh]
      by_cases hn : n = 0
      · rw [if_pos hn]
      · rw [if_neg hn, hl, readLoop_cons n l0 rest 0 initState (by omega),
          step_first_err n l0 0 hshort]
  · intro f n l0 rest j hh hl h3 hj1 hjn hjl hshort
    have herr : readLoop n rest 1 (storeLine l0 0
        (⟨l0.length, some (List.replicate n none),
          if 4 ≤ l0.length then some (List.replicate n none) else none,
          if 7 ≤ l0.length then some (List.replicate n none) else none⟩ :
            RState)) = .error () := by
      apply readLoop_err n l0.length (by omega) rest 1 _
        (by rw [storeLine_numFields])
      refine ⟨j - 1, ?_, by omega, ?_⟩
      · rw [hl] at hjl
        simp at hjl
        omega
      · have eg : rest.getD (j - 1) [] = f.lines.getD j [] := by
          rw [hl]
          cases j with
          | zero => omega
          | succ j' => simp
        rw [eg]
        exact hshort
    have hloop : readLoop n f.lines 0 initState = .error () := by
      rw [hl, readLoop_cons n l0 rest 0 initState (by omega),
        step_first n l0 0 h3]
      exact herr
    rw [read_header_some f n hh, if_neg (by omega), hloop]

theorem claim_C4_witness :
    ReadPointCloudFromPTS ⟨some 1, [[Token.fnum 1, Token.fnum 2]]⟩ = none ∧
    ReadPointCloudFromPTS ⟨some 2,
      [[Token.fnum 1, Token.fnum 2, Token.fnum 3, Token.fnum 4],
       [Token.fnum 1, Token.fnum 2, Token.fnum 3]]⟩ = none :=
  ⟨claim_C4_field_count_errors.1 ⟨some 1, [[Token.fnum 1, Token.fnum 2]]⟩
      [Token.fnum 1, Token.fnum 2] [] rfl (by decide),
   claim_C4_field_count_errors.2 ⟨some 2,
      [[Token.fnum 1, Token.fnum 2, Token.fnum 3, Token.fnum 4],
       [Token.fnum 1, Token.fnum 2, Token.fnum 3]]⟩ 2
      [Token.fnum 1, Token.fnum 2, Token.fnum 3, Token.fnum 4]
      [[Token.fnum 1, Token.fnum 2, Token.fnum 3]] 1 rfl rfl (by decide)
      (by decide) (by decide) (by decide) (by decide)⟩

/-- C5: a truncated file — fewer well-formed data lines than the declared
count — is not an error: the loop stops at end of file and the read returns
true. -/
theorem claim_C5_truncation_tolerated (f : PTSFile) (n : ℕ)
    (hh : f.header = some n) (hlt : f.lines.length < n)
    (hwf : ∀ (l0 : List Token) (rest : List (List Token)),
      f.lines = l0 :: rest → 3 ≤ l0.length ∧
        ∀ j, j < f.lines.length →
          l0.length ≤ (f.lines.getD j []).length) :
    ∃ rc, ReadPointCloudFromPTS f = some rc := by
  have hn : n ≠ 0 := by omega
  cases hl : f.lines with
  | nil =>
    refine ⟨⟨none, none, none⟩, ?_⟩
    rw [read_header_some f n hh, if_neg hn, hl]
    rfl
  | cons l0 rest =>
    obtain ⟨h3, hlen⟩ := hwf l0 rest hl
    obtain ⟨P', I', C', hread, -⟩ :=
      read_spec f n l0 rest hh hn hl h3 (fun j hj _ => hlen j hj)
    exact ⟨_, hread⟩

theorem claim_C5_witness :
    (⟨some 5, [[Token.fnum 1, Token.fnum 2, Token.fnum 3],
      [Token.fnum 4, Token.fnum 5, Token.fnum 6]]⟩ : PTSFile).lines.length
        < 5 ∧
    ∃ rc, ReadPointCloudFromPTS ⟨some 5,
      [[Token.fnum 1, Token.fnum 2, Token.fnum 3],
       [Token.fnum 4, Token.fnum 5, Token.fnum 6]]⟩ = some rc :=
  ⟨by decide,
   claim_C5_truncation_tolerated ⟨some 5,
      [[Token.fnum 1, Token.fnum 2, Token.fnum 3],
       [Token.fnum 4, Token.fnum 5, Token.fnum 6]]⟩ 5 rfl (by decide)
      (by
        intro l0 rest h
        injection h with h1 h2
        subst h1
        exact ⟨by decide, by decide⟩)⟩

/-- C2: after a successful read the attribute set is fixed by the token
count of the first data line: intensities present iff that count is at least
4, colors present iff at least 7; exactly 3 tokens gives positions only. -/
theorem claim_C2_schema_inference (f : PTSFile) (rc : ReadCloud)
    (l0 : List Token) (rest : List (List Token)) (hl : f.lines = l0 :: rest)
    (hr : ReadPointCloudFromPTS f = some rc) :
    (rc.intensities.isSome ↔ 4 ≤ l0.length) ∧
    (rc.colors.isSome ↔ 7 ≤ l0.length) ∧
    (l0.length = 3 → rc.intensities = none ∧ rc.colors = none) := by
  obtain ⟨n, hh, -, -⟩ := read_some_inv f rc hr
  obtain ⟨h3, hn, P', I', C', e, -⟩ :=
    read_some_content f rc n l0 rest hh hl hr
  subst e
  refine ⟨?_, ?_, ?_⟩
  · by_cases h4 : 4 ≤ l0.length <;> simp [h4]
  · by_cases h7 : 7 ≤ l0.length <;> simp [h7]
  · intro h3e
    constructor <;>
      simp [show ¬4 ≤ l0.length by omega, show ¬7 ≤ l0.length by omega]

/-- C9 counterexample: a file whose header declares one point but which has
no data lines a) reads successfully and b) leaves the positions tensor
unallocated (the loop never ran, so the default-constructed tensor — not an
N×3 array — is handed to the cloud), refuting "positions are always present
after a successful read, including when the file ends before any data
line". -/
theorem claim_C9_counterexample :
    ReadPointCloudFromPTS ⟨some 1, []⟩ = some ⟨none, none, none⟩ := by
  rfl

/-- C9 (amended): after every successful read of a file with at least one
data line, the output cloud's positions tensor is present with exactly the
declared number of rows (each row a 3-vector); when the file ends before any
data line the read still succeeds but positions are left unallocated. -/
theorem claim_C9_positions_present (f : PTSFile) (n : ℕ) (rc : ReadCloud)
    (hh : f.header = some n) (hne : f.lines ≠ [])
    (hr : ReadPointCloudFromPTS f = some rc) :
    ∃ P', rc.positions = some P' ∧ P'.length = n := by
  cases hl : f.lines with
  | nil => exact absurd hl hne
  | cons l0 rest =>
    obtain ⟨-, -, P', I', C', e, hlP, -⟩ :=
      read_some_content f rc n l0 rest hh hl hr
    subst e
    exact ⟨P', rfl, hlP⟩

/-- C10: on a successful read of a truncated file the committed arrays keep
their allocation size — the declared count `n`, not the number of lines
actually present — and every row past the last data line is unwritten. -/
theorem claim_C10_declared_size (f : PTSFile) (n : ℕ) (rc : ReadCloud)
    (hh : f.header = some n) (hne : f.lines ≠ []) (hlt : f.lines.length < n)
    (hr : ReadPointCloudFromPTS f = some rc) :
    ∃ P', rc.positions = some P' ∧ P'.length = n ∧
      (∀ k, f.lines.length ≤ k → k < n → P'.getD k none = none) ∧
      (∀ I', rc.intensities = some I' → I'.length = n ∧
        ∀ k, f.lines.length ≤ k → k < n → I'.getD k none = none) ∧
      (∀ C', rc.colors = some C' → C'.length = n ∧
        ∀ k, f.lines.length ≤ k → k < n → C'.getD k none = none) := by
  cases hl : f.lines with
  | nil => exact absurd hl hne
  | cons l0 rest =>
    obtain ⟨h3, hn, P', I', C', e, hlP, hlI, hlC, hpt⟩ :=
      read_some_content f rc n l0 rest hh hl hr
    subst e
    refine ⟨P', rfl, hlP, ?_, ?_, ?_⟩
    · intro k hk1 hk2
      rw [(hpt k hk2).1, getD_of_le f.lines k [] (by rw [hl]; exact hk1), rowP_nil]
    · intro I'' hI''
      by_cases h4 : 4 ≤ l0.length
      · rw [show (⟨some P', if 4 ≤ l0.length then some I' else none,
          if 7 ≤ l0.length then some C' else none⟩ :
            ReadCloud).intensities =
            (if 4 ≤ l0.length then some I' else none) from rfl,
          if_pos h4] at hI''
        injection hI'' with e'
        subst e'
        refine ⟨hlI, ?_⟩
        intro k hk1 hk2
        rw [(hpt k hk2).2.1, getD_of_le f.lines k [] (by rw [hl]; exact hk1), rowI_nil]
      · rw [show (⟨some P', if 4 ≤ l0.length then some I' else none,
          if 7 ≤ l0.length then some C' else none⟩ :
            ReadCloud).intensities =
            (if 4 ≤ l0.length then some I' else none) from rfl,
          if_neg h4] at hI''
        exact absurd hI'' (by simp)
    · intro C'' hC''
      by_cases h7 : 7 ≤ l0.length
      · rw [show (⟨some P', if 4 ≤ l0.length then some I' else none,
          if 7 ≤ l0.length then some C' else none⟩ :
            ReadCloud).colors =
            (if 7 ≤ l0.length then some C' else none) from rfl,
          if_pos h7] at hC''
        injection hC'' with e'
        subst e'
        refine ⟨hlC, ?_⟩
        intro k hk1 hk2
        rw [(hpt k hk2).2.2, getD_of_le f.lines k [] (by rw [hl]; exact hk1), rowC_nil]
      · rw [show (⟨some P', if 4 ≤ l0.length then some I' else none,
          if 7 ≤ l0.length then some C' else none⟩ :
            ReadCloud).colors =
            (if 7 ≤ l0.length then some C' else none) from rfl,
          if_neg h7] at hC''
        exact absurd hC'' (by simp)

/-- When every pattern the committed count allows fails on a line, the
cascade extracts nothing. -/
theorem rowData_none (nf : ℕ) (l : List Token)
    (h7 : 7 ≤ nf → parse7 l = none) (h4 : 4 ≤ nf → parse4 l = none)
    (h3 : parse3 l = none) : rowData nf l = none := by
  unfold rowData
  by_cases c7 : 7 ≤ nf
  · rw [if_pos c7, h7 c7]
    by_cases c4 : 4 ≤ nf
    · rw [if_pos c4, h4 c4, h3]
    · rw [if_neg c4, h3]
  · rw [if_neg c7]
    by_cases c4 : 4 ≤ nf
    · rw [if_pos c4, h4 c4, h3]
    · rw [if_neg c4, h3]

/-- C6: a data line with enough tokens whose content nonetheless defeats
every applicable sscanf layout (7-field, then 4-field, then 3-field) is not
fatal: the read still succeeds, that line's rows in every allocated tensor
stay unwritten, and the row index still advances past the row — every other
line's extracted data lands at its own row index. -/
theorem claim_C6_unparsable_line_skipped (f : PTSFile) (n : ℕ)
    (l0 : List Token) (rest : List (List Token)) (j : ℕ)
    (hh : f.header = some n) (hl : f.lines = l0 :: rest)
    (h3 : 3 ≤ l0.length)
    (hlen : ∀ k, k < f.lines.length → k < n →
      l0.length ≤ (f.lines.getD k []).length)
    (hj : j < f.lines.length) (hjn : j < n)
    (hp7 : 7 ≤ l0.length → parse7 (f.lines.getD j []) = none)
    (hp4 : 4 ≤ l0.length → parse4 (f.lines.getD j []) = none)
    (hp3 : parse3 (f.lines.getD j []) = none) :
    ∃ rc, ReadPointCloudFromPTS f = some rc ∧
      ∃ P', rc.positions = some P' ∧ P'.length = n ∧
        P'.getD j none = none ∧
        (∀ I', rc.intensities = some I' → I'.getD j none = none) ∧
        (∀ C', rc.colors = some C' → C'.getD j none = none) ∧
        (∀ k, k < f.lines.length → k < n → ∀ d,
          rowData l0.length (f.lines.getD k []) = some d →
          P'.getD k none = some d.1) := by
  have hn : n ≠ 0 := by omega
  obtain ⟨P', I', C', hread, hlP, hlI, hlC, hpt⟩ :=
    read_spec f n l0 rest hh hn hl h3 hlen
  have hrd : rowData l0.length (f.lines.getD j []) = none :=
    rowData_none l0.length (f.lines.getD j []) hp7 hp4 hp3
  refine ⟨_, hread, P', rfl, hlP, ?_, ?_, ?_, ?_⟩
  · rw [(hpt j hjn).1, rowP, hrd]
    rfl
  · intro I'' hI''
    by_cases h4 : 4 ≤ l0.length
    · rw [show (⟨some P', if 4 ≤ l0.length then some I' else none,
        if 7 ≤ l0.length then some C' else none⟩ :
          ReadCloud).intensities =
          (if 4 ≤ l0.length then some I' else none) from rfl,
        if_pos h4] at hI''
      injection hI'' with e'
      subst e'
      rw [(hpt j hjn).2.1, rowI, hrd]
      rfl
    · rw [show (⟨some P', if 4 ≤ l0.length then some I' else none,
        if 7 ≤ l0.length then some C' else none⟩ :
          ReadCloud).intensities =
          (if 4 ≤ l0.length then some I' else none) from rfl,
        if_neg h4] at hI''
      exact absurd hI'' (by simp)
  · intro C'' hC''
    by_cases h7 : 7 ≤ l0.length
    · rw [show (⟨some P', if 4 ≤ l0.length then some I' else none,
        if 7 ≤ l0.length then some C' else none⟩ :
          ReadCloud).colors =
          (if 7 ≤ l0.length then some C' else none) from rfl,
        if_pos h7] at hC''
      injection hC'' with e'
      subst e'
      rw [(hpt j hjn).2.2, rowC, hrd]
      rfl
    · rw [show (⟨some P', if 4 ≤ l0.length then some I' else none,
        if 7 ≤ l0.length then some C' else none⟩ :
          ReadCloud).colors =
          (if 7 ≤ l0.length then some C' else none) from rfl,
        if_neg h7] at hC''
      exact absurd hC'' (by simp)
  · intro k hk1 hk2 d hd
    rw [(hpt k hk2).1, rowP, hd]
    rfl

/-- C8: the writer picks each line's layout from the two attribute booleans
queried as has-colors AND has-intensities: both give 7 fields
`X Y Z I R G B`, intensities alone give 4 fields, anything else 3 fields —
in particular colors without intensities are dropped entirely (only `%.10f`
float fields are emitted) — and every emitted line has the same field
count. -/
theorem claim_C8_write_layout (pc : PointCloud) (h : pc.positions ≠ []) :
    (∀ l ∈ (WritePointCloudToPTS pc).lines,
      l.length = if pc.colors.isSome && pc.intensities.isSome then 7
                 else if pc.intensities.isSome then 4 else 3) ∧
    (pc.intensities = none →
      ∀ l ∈ (WritePointCloudToPTS pc).lines, ∀ t ∈ l,
        ∃ q, t = Token.fnum q) := by
  have hne : ¬(pc.positions.isEmpty = true) := by
    simpa using h
  have hmem : ∀ l ∈ (WritePointCloudToPTS pc).lines,
      ∃ j, writeLine pc j = some l := by
    intro l hm
    unfold WritePointCloudToPTS at hm
    rw [if_neg hne] at hm
    exact writeLoop_mem pc pc.positions.length 0 l hm
  constructor
  · intro l hm
    obtain ⟨j, hw⟩ := hmem l hm
    exact writeLine_length pc j l hw
  · intro hint l hm t ht
    obtain ⟨j, hw⟩ := hmem l hm
    exact writeLine_no_ints pc j l hint hw t ht

theorem rowP_three (x y z : ℚ) :
    rowP 3 [.fnum x, .fnum y, .fnum z] = some (x, y, z) := rfl

theorem rowP_four (x y z i : ℚ) :
    rowP 4 [.fnum x, .fnum y, .fnum z, .fnum i] = some (x, y, z) := rfl

theorem rowI_four (x y z i : ℚ) :
    rowI 4 [.fnum x, .fnum y, .fnum z, .fnum i] = some i := rfl

theorem rowC_four (x y z i : ℚ) :
    rowC 4 [.fnum x, .fnum y, .fnum z, .fnum i] = none := rfl

theorem rowP_seven (x y z i : ℚ) (r g b : ℤ) :
    rowP 7 [.fnum x, .fnum y, .fnum z, .fnum i, .inum r, .inum g, .inum b] =
      some (x, y, z) := rfl

theorem rowI_seven (x y z i : ℚ) (r g b : ℤ) :
    rowI 7 [.fnum x, .fnum y, .fnum z, .fnum i, .inum r, .inum g, .inum b] =
      some i := rfl

theorem rowC_seven (x y z i : ℚ) (r g b : ℤ) :
    rowC 7 [.fnum x, .fnum y, .fnum z, .fnum i, .inum r, .inum g, .inum b] =
      some (toU8 r, toU8 g, toU8 b) := rfl

theorem rowI_three (x y z : ℚ) :
    rowI 3 [.fnum x, .fnum y, .fnum z] = none := rfl

theorem rowC_three (x y z : ℚ) :
    rowC 3 [.fnum x, .fnum y, .fnum z] = none := rfl

/-- C1: writing a nonempty cloud whose attribute set is positions only,
positions+intensities, or positions+intensities+colors (with uint8 color
channels) succeeds, and reading the produced file back succeeds and yields
the same point count, the same attribute set, position and intensity values
rounded to the 10-decimal-digit text precision — within half an ulp,
`1 / (2 * 10 ^ 10)`, of the originals — and the integer color channels
exactly. -/
theorem claim_C1_roundtrip (pc : PointCloud) (hN : 1 ≤ pc.positions.length)
    (hattr : (pc.intensities = none ∧ pc.colors = none) ∨
      (∃ I, pc.intensities = some I ∧ I.length = pc.positions.length ∧
        pc.colors = none) ∨
      (∃ I Cc, pc.intensities = some I ∧ I.length = pc.positions.length ∧
        pc.colors = some Cc ∧ Cc.length = pc.positions.length ∧
        ∀ c ∈ Cc, c.1 < 256 ∧ c.2.1 < 256 ∧ c.2.2 < 256)) :
    (WritePointCloudToPTS pc).ok = true ∧
    ∃ rc, ReadPointCloudFromPTS (toPTSFile (WritePointCloudToPTS pc)) =
        some rc ∧
      (∃ P', rc.positions = some P' ∧ P'.length = pc.positions.length ∧
        ∀ k, k < pc.positions.length →
          P'.getD k none = some (fmt10 (pc.positions.getD k (0, 0, 0)).1,
            fmt10 (pc.positions.getD k (0, 0, 0)).2.1,
            fmt10 (pc.positions.getD k (0, 0, 0)).2.2)) ∧
      rc.intensities.isSome = pc.intensities.isSome ∧
      (∀ I, pc.intensities = some I →
        ∃ I', rc.intensities = some I' ∧ I'.length = pc.positions.length ∧
          ∀ k, k < pc.positions.length →
            I'.getD k none = some (fmt10 (I.getD k 0))) ∧
      rc.colors.isSome = pc.colors.isSome ∧
      (∀ Cc, pc.colors = some Cc →
        ∃ C', rc.colors = some C' ∧ C'.length = pc.positions.length ∧
          ∀ k, k < pc.positions.length →
            C'.getD k none = some (Cc.getD k (0, 0, 0))) ∧
      (∀ q : ℚ, |fmt10 q - q| ≤ 1 / (2 * 10 ^ 10)) := by
  have hne : pc.positions ≠ [] := by
    intro e
    rw [e] at hN
    exact absurd hN (by simp)
  have hne' : ¬(pc.positions.isEmpty = true) := by
    simpa using hne
  rcases hattr with ⟨hi, hc⟩ | ⟨I, hi, hIl, hc⟩ |
    ⟨I, Cc, hi, hIl, hc, hCl, hCb⟩
  · -- positions only: 3-field lines
    have hall : ∀ j, j < pc.positions.length →
        (writeLine pc (0 + j)).isSome = true := by
      intro j hj
      rw [Nat.zero_add, writeLine_plain pc j hi (by omega)]
      rfl
    obtain ⟨ls, hwl, hlsl, hget⟩ :=
      writeLoop_ok pc pc.positions.length 0 hall
    obtain ⟨l0, rest, hls⟩ : ∃ a t, ls = a :: t := by
      cases ls with
      | nil => simp at hlsl; omega
      | cons a t => exact ⟨a, t, rfl⟩
    subst hls
    have hwrite : WritePointCloudToPTS pc =
        ⟨some pc.positions.length, l0 :: rest, true⟩ := by
      unfold WritePointCloudToPTS
      rw [if_neg hne']
      show (⟨some pc.positions.length,
        (writeLoop pc 0 pc.positions.length).1,
        (writeLoop pc 0 pc.positions.length).2⟩ : WriteResult) = _
      rw [hwl]
    have hline : ∀ k, k < pc.positions.length → (l0 :: rest).getD k [] =
        [Token.fnum (fmt10 (pc.positions.getD k (0, 0, 0)).1),
         Token.fnum (fmt10 (pc.positions.getD k (0, 0, 0)).2.1),
         Token.fnum (fmt10 (pc.positions.getD k (0, 0, 0)).2.2)] := by
      intro k hk
      have hg := hget k hk
      rw [Nat.zero_add, writeLine_plain pc k hi (by omega)] at hg
      simpa using hg
    have hl0 : l0 =
        [Token.fnum (fmt10 (pc.positions.getD 0 (0, 0, 0)).1),
         Token.fnum (fmt10 (pc.positions.getD 0 (0, 0, 0)).2.1),
         Token.fnum (fmt10 (pc.positions.getD 0 (0, 0, 0)).2.2)] := by
      have h := hline 0 (by omega)
      simpa using h
    have hl0len : l0.length = 3 := by rw [hl0]; rfl
    obtain ⟨P', I', C', hread, hlP, hlI, hlC, hpt⟩ :=
      read_spec ⟨some pc.positions.length, l0 :: rest⟩ pc.positions.length
        l0 rest rfl (by omega) rfl (by omega)
        (by
          intro j hj hjn
          have hlj := hline j hjn
          have h3j : (((⟨some pc.positions.length, l0 :: rest⟩ :
              PTSFile).lines).getD j []).length = 3 := by
            rw [show ((⟨some pc.positions.length, l0 :: rest⟩ :
              PTSFile).lines) = l0 :: rest from rfl, hlj]
            rfl
          omega)
    simp only [hl0len,
      show ((⟨some pc.positions.length, l0 :: rest⟩ : PTSFile).lines) =
        l0 :: rest from rfl] at hread hpt
    rw [if_neg (show ¬(4 : ℕ) ≤ 3 by omega),
      if_neg (show ¬(7 : ℕ) ≤ 3 by omega)] at hread
    refine ⟨by rw [hwrite], ⟨some P', none, none⟩,
      by rw [hwrite]; exact hread, ⟨P', rfl, hlP, ?_⟩,
      by rw [hi]; rfl, ?_, by rw [hc]; rfl, ?_, fun q => fmt10_close q⟩
    · intro k hk
      have h := (hpt k hk).1
      rw [hline k hk, rowP_three] at h
      exact h
    · intro I0 hI0
      rw [hi] at hI0
      exact absurd hI0 (by simp)
    · intro Cc0 hCc0
      rw [hc] at hCc0
      exact absurd hCc0 (by simp)
  · -- positions and intensities: 4-field lines
    have hall : ∀ j, j < pc.positions.length →
        (writeLine pc (0 + j)).isSome = true := by
      intro j hj
      rw [Nat.zero_add,
        writeLine_intens pc I j hi hc (by omega) (by omega)]
      rfl
    obtain ⟨ls, hwl, hlsl, hget⟩ :=
      writeLoop_ok pc pc.positions.length 0 hall
    obtain ⟨l0, rest, hls⟩ : ∃ a t, ls = a :: t := by
      cases ls with
      | nil => simp at hlsl; omega
      | cons a t => exact ⟨a, t, rfl⟩
    subst hls
    have hwrite : WritePointCloudToPTS pc =
        ⟨some pc.positions.length, l0 :: rest, true⟩ := by
      unfold WritePointCloudToPTS
      rw [if_neg hne']
      show (⟨some pc.positions.length,
        (writeLoop pc 0 pc.positions.length).1,
        (writeLoop pc 0 pc.positions.length).2⟩ : WriteResult) = _
      rw [hwl]
    have hline : ∀ k, k < pc.positions.length → (l0 :: rest).getD k [] =
        [Token.fnum (fmt10 (pc.positions.getD k (0, 0, 0)).1),
         Token.fnum (fmt10 (pc.positions.getD k (0, 0, 0)).2.1),
         Token.fnum (fmt10 (pc.positions.getD k (0, 0, 0)).2.2),
         Token.fnum (fmt10 (I.getD k 0))] := by
      intro k hk
      have hg := hget k hk
      rw [Nat.zero_add,
        writeLine_intens pc I k hi hc (by omega) (by omega)] at hg
      simpa using hg
    have hl0 : l0 =
        [Token.fnum (fmt10 (pc.positions.getD 0 (0, 0, 0)).1),
         Token.fnum (fmt10 (pc.positions.getD 0 (0, 0, 0)).2.1),
         Token.fnum (fmt10 (pc.positions.getD 0 (0, 0, 0)).2.2),
         Token.fnum (fmt10 (I.getD 0 0))] := by
      have h := hline 0 (by omega)
      simpa using h
    have hl0len : l0.length = 4 := by rw [hl0]; rfl
    obtain ⟨P', I', C', hread, hlP, hlI, hlC, hpt⟩ :=
      read_spec ⟨some pc.positions.length, l0 :: rest⟩ pc.positions.length
        l0 rest rfl (by omega) rfl (by omega)
        (by
          intro j hj hjn
          have hlj := hline j hjn
          have h4j : (((⟨some pc.positions.length, l0 :: rest⟩ :
              PTSFile).lines).getD j []).length = 4 := by
            rw [show ((⟨some pc.positions.length, l0 :: rest⟩ :
              PTSFile).lines) = l0 :: rest from rfl, hlj]
            rfl
          omega)
    simp only [hl0len,
      show ((⟨some pc.positions.length, l0 :: rest⟩ : PTSFile).lines) =
        l0 :: rest from rfl] at hread hpt
    rw [if_pos (show (4 : ℕ) ≤ 4 by omega),
      if_neg (show ¬(7 : ℕ) ≤ 4 by omega)] at hread
    refine ⟨by rw [hwrite], ⟨some P', some I', none⟩,
      by rw [hwrite]; exact hread, ⟨P', rfl, hlP, ?_⟩,
      by rw [hi]; rfl, ?_, by rw [hc]; rfl, ?_, fun q => fmt10_close q⟩
    · intro k hk
      have h := (hpt k hk).1
      rw [hline k hk, rowP_four] at h
      exact h
    · intro I0 hI0
      rw [hi] at hI0
      injection hI0 with e
      subst e
      refine ⟨I', rfl, hlI, ?_⟩
      intro k hk
      have h := (hpt k hk).2.1
      rw [hline k hk, rowI_four] at h
      exact h
    · intro Cc0 hCc0
      rw [hc] at hCc0
      exact absurd hCc0 (by simp)
  · -- positions, intensities and colors: 7-field lines
    have hall : ∀ j, j < pc.positions.length →
        (writeLine pc (0 + j)).isSome = true := by
      intro j hj
      rw [Nat.zero_add,
        writeLine_both pc I Cc j hi hc (by omega) (by omega) (by omega)]
      rfl
    obtain ⟨ls, hwl, hlsl, hget⟩ :=
      writeLoop_ok pc pc.positions.length 0 hall
    obtain ⟨l0, rest, hls⟩ : ∃ a t, ls = a :: t := by
      cases ls with
      | nil => simp at hlsl; omega
      | cons a t => exact ⟨a, t, rfl⟩
    subst hls
    have hwrite : WritePointCloudToPTS pc =
        ⟨some pc.positions.length, l0 :: rest, true⟩ := by
      unfold WritePointCloudToPTS
      rw [if_neg hne']
      show (⟨some pc.positions.length,
        (writeLoop pc 0 pc.positions.length).1,
        (writeLoop pc 0 pc.positions.length).2⟩ : WriteResult) = _
      rw [hwl]
    have hline : ∀ k, k < pc.positions.length → (l0 :: rest).getD k [] =
        [Token.fnum (fmt10 (pc.positions.getD k (0, 0, 0)).1),
         Token.fnum (fmt10 (pc.positions.getD k (0, 0, 0)).2.1),
         Token.fnum (fmt10 (pc.positions.getD k (0, 0, 0)).2.2),
         Token.fnum (fmt10 (I.getD k 0)),
         Token.inum ((Cc.getD k (0, 0, 0)).1 : ℤ),
         Token.inum ((Cc.getD k (0, 0, 0)).2.1 : ℤ),
         Token.inum ((Cc.getD k (0, 0, 0)).2.2 : ℤ)] := by
      intro k hk
      have hg := hget k hk
      rw [Nat.zero_add,
        writeLine_both pc I Cc k hi hc (by omega) (by omega)
          (by omega)] at hg
      simpa using hg
    have hl0 : l0.length = 7 := by
      have h := hline 0 (by omega)
      simp only [List.getD_cons_zero] at h
      rw [h]
      rfl
    obtain ⟨P', I', C', hread, hlP, hlI, hlC, hpt⟩ :=
      read_spec ⟨some pc.positions.length, l0 :: rest⟩ pc.positions.length
        l0 rest rfl (by omega) rfl (by omega)
        (by
          intro j hj hjn
          have hlj := hline j hjn
          have h7j : (((⟨some pc.positions.length, l0 :: rest⟩ :
              PTSFile).lines).getD j []).length = 7 := by
            rw [show ((⟨some pc.positions.length, l0 :: rest⟩ :
              PTSFile).lines) = l0 :: rest from rfl, hlj]
            rfl
          omega)
    simp only [hl0,
      show ((⟨some pc.positions.length, l0 :: rest⟩ : PTSFile).lines) =
        l0 :: rest from rfl] at hread hpt
    rw [if_pos (show (4 : ℕ) ≤ 7 by omega),
      if_pos (show (7 : ℕ) ≤ 7 by omega)] at hread
    refine ⟨by rw [hwrite], ⟨some P', some I', some C'⟩,
      by rw [hwrite]; exact hread, ⟨P', rfl, hlP, ?_⟩,
      by rw [hi]; rfl, ?_, by rw [hc]; rfl, ?_, fun q => fmt10_close q⟩
    · intro k hk
      have h := (hpt k hk).1
      rw [hline k hk, rowP_seven] at h
      exact h
    · intro I0 hI0
      rw [hi] at hI0
      injection hI0 with e
      subst e
      refine ⟨I', rfl, hlI, ?_⟩
      intro k hk
      have h := (hpt k hk).2.1
      rw [hline k hk, rowI_seven] at h
      exact h
    · intro Cc0 hCc0
      rw [hc] at hCc0
      injection hCc0 with e
      subst e
      refine ⟨C', rfl, hlC, ?_⟩
      intro k hk
      have h := (hpt k hk).2.2
      rw [hline k hk, rowC_seven] at h
      have hmem : Cc.getD k (0, 0, 0) ∈ Cc := by
        have hk' : k < Cc.length := by omega
        rw [List.getD_eq_getElem?_getD, List.getElem?_eq_getElem hk']
        simp
      obtain ⟨hb1, hb2, hb3⟩ := hCb _ hmem
      rw [toU8_of_lt _ hb1, toU8_of_lt _ hb2, toU8_of_lt _ hb3] at h
      exact h

theorem claim_C1_witness :
    1 ≤ wpc1.positions.length ∧
    ((WritePointCloudToPTS wpc1).ok = true ∧
     ∃ rc, ReadPointCloudFromPTS (toPTSFile (WritePointCloudToPTS wpc1)) =
         some rc ∧
       (∃ P', rc.positions = some P' ∧ P'.length = wpc1.positions.length ∧
         ∀ k, k < wpc1.positions.length →
           P'.getD k none = some (fmt10 (wpc1.positions.getD k (0, 0, 0)).1,
             fmt10 (wpc1.positions.getD k (0, 0, 0)).2.1,
             fmt10 (wpc1.positions.getD k (0, 0, 0)).2.2)) ∧
       rc.intensities.isSome = wpc1.intensities.isSome ∧
       (∀ I, wpc1.intensities = some I →
         ∃ I', rc.intensities = some I' ∧
           I'.length = wpc1.positions.length ∧
           ∀ k, k < wpc1.positions.length →
             I'.getD k none = some (fmt10 (I.getD k 0))) ∧
       rc.colors.isSome = wpc1.colors.isSome ∧
       (∀ Cc, wpc1.colors = some Cc →
         ∃ C', rc.colors = some C' ∧ C'.length = wpc1.positions.length ∧
           ∀ k, k < wpc1.positions.length →
             C'.getD k none = some (Cc.getD k (0, 0, 0))) ∧
       (∀ q : ℚ, |fmt10 q - q| ≤ 1 / (2 * 10 ^ 10))) :=
  ⟨by decide,
   claim_C1_roundtrip wpc1 (by decide)
     (Or.inr (Or.inr ⟨[7/4], [(255, 0, 128)], rfl, rfl, rfl, rfl,
       by decide⟩))⟩

theorem claim_C2_witness :
    wf2.lines =
      [Token.fnum 1, Token.fnum 2, Token.fnum 3, Token.fnum 9] :: [] ∧
    ReadPointCloudFromPTS wf2 = some wrc2 ∧
    ((wrc2.intensities.isSome ↔ 4 ≤
        ([Token.fnum 1, Token.fnum 2, Token.fnum 3, Token.fnum 9] :
          List Token).length) ∧
     (wrc2.colors.isSome ↔ 7 ≤
        ([Token.fnum 1, Token.fnum 2, Token.fnum 3, Token.fnum 9] :
          List Token).length) ∧
     (([Token.fnum 1, Token.fnum 2, Token.fnum 3, Token.fnum 9] :
          List Token).length = 3 →
       wrc2.intensities = none ∧ wrc2.colors = none)) :=
  ⟨rfl, rfl, claim_C2_schema_inference wf2 wrc2
    [Token.fnum 1, Token.fnum 2, Token.fnum 3, Token.fnum 9] [] rfl rfl⟩

theorem claim_C6_witness :
    (3 ≤ ([Token.fnum 1, Token.fnum 2, Token.fnum 3] :
      List Token).length) ∧
    parse3 (wf6.lines.getD 1 []) = none ∧
    (∃ rc, ReadPointCloudFromPTS wf6 = some rc ∧
      ∃ P', rc.positions = some P' ∧ P'.length = 3 ∧
        P'.getD 1 none = none ∧
        (∀ I', rc.intensities = some I' → I'.getD 1 none = none) ∧
        (∀ C', rc.colors = some C' → C'.getD 1 none = none) ∧
        (∀ k, k < wf6.lines.length → k < 3 → ∀ d,
          rowData ([Token.fnum 1, Token.fnum 2, Token.fnum 3] :
            List Token).length (wf6.lines.getD k []) = some d →
          P'.getD k none = some d.1)) :=
  ⟨by decide, by decide,
   claim_C6_unparsable_line_skipped wf6 3
     [Token.fnum 1, Token.fnum 2, Token.fnum 3]
     [[.junk, .junk, .junk], [.fnum 7, .fnum 8, .fnum 9]] 1 rfl rfl
     (by decide) (by decide) (by decide) (by decide)
     (fun h => absurd h (by decide)) (fun h => absurd h (by decide))
     (by decide)⟩

theorem claim_C8_witness :
    wpc8.positions ≠ [] ∧
    ((∀ l ∈ (WritePointCloudToPTS wpc8).lines,
      l.length = if wpc8.colors.isSome && wpc8.intensities.isSome then 7
                 else if wpc8.intensities.isSome then 4 else 3) ∧
     (wpc8.intensities = none →
      ∀ l ∈ (WritePointCloudToPTS wpc8).lines, ∀ t ∈ l,
        ∃ q, t = Token.fnum q)) :=
  ⟨by decide, claim_C8_write_layout wpc8 (by decide)⟩

theorem claim_C9_witness :
    wf9.header = some 2 ∧ wf9.lines ≠ [] ∧
    ReadPointCloudFromPTS wf9 = some wrc9 ∧
    ∃ P', wrc9.positions = some P' ∧ P'.length = 2 :=
  ⟨rfl, by decide, rfl,
   claim_C9_positions_present wf9 2 wrc9 rfl (by decide) rfl⟩

theorem claim_C10_witness :
    wf10.header = some 4 ∧ wf10.lines ≠ [] ∧ wf10.lines.length < 4 ∧
    ReadPointCloudFromPTS wf10 = some wrc10 ∧
    ∃ P', wrc10.positions = some P' ∧ P'.length = 4 ∧
      (∀ k, wf10.lines.length ≤ k → k < 4 → P'.getD k none = none) ∧
      (∀ I', wrc10.intensities = some I' → I'.length = 4 ∧
        ∀ k, wf10.lines.length ≤ k → k < 4 → I'.getD k none = none) ∧
      (∀ C', wrc10.colors = some C' → C'.length = 4 ∧
        ∀ k, wf10.lines.length ≤ k → k < 4 → C'.getD k none = none) :=
  ⟨rfl, by decide, by decide, rfl,
   claim_C10_declared_size wf10 4 wrc10 rfl (by decide) (by decide) rfl⟩

end PTS
